import Mathlib

/-!
Verification development for a batch ETL pipeline (src/etl.py) that turns raw
song metadata records and application log events into a star schema with five
output tables (songs, artists, users, time, songplays), persisted as
partitioned columnar files with overwrite semantics.

The embedding below translates the transformation logic of the source into
executable Lean definitions: the two ingest schemas and the fail-fast record
validation, the per-table projections and key deduplication, the epoch-ms to
local calendar-timestamp decomposition (the behaviour of datetime.fromtimestamp
and the engine's hour/dayofmonth/weekofyear/month/year column functions,
modelled from the spec as proleptic-Gregorian local-time decomposition with an
explicit timezone-offset parameter), the page filter and the inner join which
build the fact table, the surrogate-id assignment (an arbitrary strictly
monotone map of the joined row index, modelling the engine's monotonically
increasing id), and the sequence of partitioned overwrite writes issued by a
whole run.
-/

/-- Decimal stand-in for a double-precision value read from a record:
mantissa and decimal exponent.  No claim computes with doubles, so only
their identity matters here. -/
abbrev DecNum := Int × Int

/-- A semi-structured (JSON-like) scalar value in a raw input record. -/
inductive JVal where
  | jnull : JVal
  | jstr : String → JVal
  | jnum : Int → Int → JVal
  | jbool : Bool → JVal
deriving DecidableEq, Repr

/-- A raw newline-delimited record: field name to value. -/
abbrev RawRec := List (String × JVal)

/-- The semantic column types appearing in the two ingest schemas. -/
inductive SType where
  | sString : SType
  | sLong : SType
  | sDouble : SType
  | sInteger : SType
deriving DecidableEq, Repr

/-- A typed cell value after validation. -/
inductive TVal where
  | tNull : TVal
  | tStr : String → TVal
  | tLong : Int → TVal
  | tDouble : Int → Int → TVal
  | tInt : Int → TVal
deriving DecidableEq, Repr

/-- One column definition of an ingest schema: name, type, nullability. -/
structure StructField where
  name : String
  ty : SType
  nullable : Bool
deriving DecidableEq, Repr

/-- The error raised when a record violates the ingest schema. -/
inductive SchemaViolation where
  | missingRequired : String → SchemaViolation
  | typeMismatch : String → SchemaViolation
deriving DecidableEq, Repr

/-- Schema of the raw song records, field for field as declared in
create_song_df (etl.py lines 47-57). -/
def song_schema : List StructField :=
  [⟨"artist_id", SType.sString, false⟩,
   ⟨"artist_latitude", SType.sString, true⟩,
   ⟨"artist_longitude", SType.sString, true⟩,
   ⟨"artist_location", SType.sString, true⟩,
   ⟨"artist_name", SType.sString, false⟩,
   ⟨"song_id", SType.sString, false⟩,
   ⟨"title", SType.sString, false⟩,
   ⟨"duration", SType.sDouble, true⟩,
   ⟨"year", SType.sInteger, true⟩]

/-- Schema of the raw log events, field for field as declared in
create_log_df (etl.py lines 73-92). -/
def log_schema : List StructField :=
  [⟨"artist", SType.sString, false⟩,
   ⟨"auth", SType.sString, true⟩,
   ⟨"firstName", SType.sString, true⟩,
   ⟨"gender", SType.sString, true⟩,
   ⟨"itemInSession", SType.sLong, true⟩,
   ⟨"lastName", SType.sString, true⟩,
   ⟨"length", SType.sDouble, true⟩,
   ⟨"level", SType.sString, true⟩,
   ⟨"location", SType.sString, true⟩,
   ⟨"method", SType.sString, true⟩,
   ⟨"page", SType.sString, false⟩,
   ⟨"registration", SType.sDouble, true⟩,
   ⟨"sessionId", SType.sLong, true⟩,
   ⟨"song", SType.sString, false⟩,
   ⟨"status", SType.sLong, true⟩,
   ⟨"ts", SType.sLong, false⟩,
   ⟨"userAgent", SType.sString, true⟩,
   ⟨"userId", SType.sString, false⟩]

/-- Look up a field by name in a raw record. -/
def getField (r : RawRec) (name : String) : Option JVal :=
  (r.find? (fun kv => kv.1 == name)).map (fun kv => kv.2)

/-- Type compatibility check of a present, non-null value against a column
type.  Longs and integers require an integral number, doubles any number,
strings a string. -/
def typeCheck : SType → JVal → Option TVal
  | SType.sString, JVal.jstr s => some (TVal.tStr s)
  | SType.sLong, JVal.jnum m 0 => some (TVal.tLong m)
  | SType.sDouble, JVal.jnum m e => some (TVal.tDouble m e)
  | SType.sInteger, JVal.jnum m 0 => some (TVal.tInt m)
  | _, _ => none

/-- Modelled from the spec: validation of one cell (4.1 Schema Registry).
The nullability and type enforcement of the engine's schema-directed reader is
not part of the repository's own code; per the spec a required field that is
absent, null, or type-incompatible must fail with a SchemaViolation, while
optional fields may be null or absent. -/
def checkField (fld : StructField) (v : Option JVal) : Except SchemaViolation TVal :=
  match v with
  | none => if fld.nullable then Except.ok TVal.tNull
            else Except.error (SchemaViolation.missingRequired fld.name)
  | some JVal.jnull => if fld.nullable then Except.ok TVal.tNull
            else Except.error (SchemaViolation.missingRequired fld.name)
  | some j => match typeCheck fld.ty j with
      | some t => Except.ok t
      | none => Except.error (SchemaViolation.typeMismatch fld.name)

/-- Fail-fast effectful map: the first error aborts the whole traversal. -/
def mapE (f : α → Except ε β) : List α → Except ε (List β)
  | [] => Except.ok []
  | x :: xs =>
    match f x with
    | Except.error e => Except.error e
    | Except.ok y =>
      match mapE f xs with
      | Except.error e => Except.error e
      | Except.ok ys => Except.ok (y :: ys)

/-- Validate one raw record against a schema, producing one typed cell per
schema column (in schema order). -/
def decodeRow (schema : List StructField) (r : RawRec) : Except SchemaViolation (List TVal) :=
  mapE (fun fld => checkField fld (getField r fld.name)) schema

/-- Reading the song source: every record is validated against song_schema;
any violation fails the whole read (etl.py create_song_df, lines 34-60). -/
def create_song_df (recs : List RawRec) : Except SchemaViolation (List (List TVal)) :=
  mapE (decodeRow song_schema) recs

/-- Reading the log source: every record is validated against log_schema;
any violation fails the whole read (etl.py create_log_df, lines 63-95). -/
def create_log_df (recs : List RawRec) : Except SchemaViolation (List (List TVal)) :=
  mapE (decodeRow log_schema) recs

/-- Whether an Except value is an error. -/
def isErr : Except ε α → Bool
  | Except.error _ => true
  | Except.ok _ => false

/-- A validated song record, fields in the order of song_schema. -/
structure SongRecord where
  artist_id : String
  artist_latitude : Option String
  artist_longitude : Option String
  artist_location : Option String
  artist_name : String
  song_id : String
  title : String
  duration : Option DecNum
  year : Option Int
deriving DecidableEq, Repr

/-- A validated log event, fields in the order of log_schema. -/
structure LogEvent where
  artist : String
  auth : Option String
  firstName : Option String
  gender : Option String
  itemInSession : Option Int
  lastName : Option String
  length : Option DecNum
  level : Option String
  location : Option String
  method : Option String
  page : String
  registration : Option DecNum
  sessionId : Option Int
  song : String
  status : Option Int
  ts : Int
  userAgent : Option String
  userId : String
deriving DecidableEq, Repr

/-- Worker for key deduplication: keeps the first row carrying each key not
yet seen. -/
def dedupByGo [DecidableEq κ] (key : α → κ) : List κ → List α → List α
  | _, [] => []
  | seen, x :: xs =>
    if key x ∈ seen then dedupByGo key seen xs
    else x :: dedupByGo key (key x :: seen) xs

/-- dropDuplicates([k]) of the engine: keep one row per key value.  The
engine leaves the surviving duplicate unspecified; this model keeps the first,
a choice none of the proved properties depend on. -/
def dedupBy [DecidableEq κ] (key : α → κ) (l : List α) : List α :=
  dedupByGo key [] l

/-- Leap test of the Gregorian year that is congruent to yoe + 1 modulo 400
(yoe counts years from the start of a 400-year era that begins with a year
congruent to 1 mod 400). -/
def isLeapEra (yoe : Nat) : Bool :=
  ((yoe + 1) % 4 == 0 && (yoe + 1) % 100 != 0) || (yoe + 1) % 400 == 0

/-- Number of days in the year at index yoe of an era. -/
def daysInYearIdx (yoe : Nat) : Nat :=
  if isLeapEra yoe then 366 else 365

/-- Splits a day count within an era into (year index, day of year),
by repeatedly subtracting whole years.  Fuel-driven so that it computes
by kernel reduction; fuel 400 suffices for any day count below 146097. -/
def splitYear : Nat → Nat → Nat → Nat × Nat
  | 0, yoe, rem => (yoe, rem)
  | fuel + 1, yoe, rem =>
    if daysInYearIdx yoe ≤ rem then splitYear fuel (yoe + 1) (rem - daysInYearIdx yoe)
    else (yoe, rem)

/-- Total length in days of fuel consecutive years starting at index yoe. -/
def sumYearLens : Nat → Nat → Nat
  | _, 0 => 0
  | yoe, fuel + 1 => daysInYearIdx yoe + sumYearLens (yoe + 1) fuel

/-- Length of calendar month m (1-12) in days. -/
def monthLen (leap : Bool) (m : Nat) : Nat :=
  match m with
  | 1 => 31
  | 2 => if leap then 29 else 28
  | 3 => 31
  | 4 => 30
  | 5 => 31
  | 6 => 30
  | 7 => 31
  | 8 => 31
  | 9 => 30
  | 10 => 31
  | 11 => 30
  | 12 => 31
  | _ => 31

/-- Days remaining in the year from the start of month m through December. -/
def sumFrom (leap : Bool) (m : Nat) : Nat :=
  match m with
  | 1 => if leap then 366 else 365
  | 2 => if leap then 335 else 334
  | 3 => 306
  | 4 => 275
  | 5 => 245
  | 6 => 214
  | 7 => 184
  | 8 => 153
  | 9 => 122
  | 10 => 92
  | 11 => 61
  | 12 => 31
  | _ => 0

/-- Splits a 0-based day-of-year into (month, 0-based day-of-month) by
repeatedly subtracting whole months, starting from month m. -/
def splitMonth (leap : Bool) : Nat → Nat → Nat → Nat × Nat
  | 0, m, rem => (m, rem)
  | fuel + 1, m, rem =>
    if 12 ≤ m then (m, rem)
    else if monthLen leap m ≤ rem then splitMonth leap fuel (m + 1) (rem - monthLen leap m)
    else (m, rem)

/-- Index of the 400-year era containing the given day count
(days counted from 1970-01-01; eras from 0001-01-01, 719162 days earlier). -/
def eraOf (days : Int) : Int :=
  (days + 719162).fdiv 146097

/-- Day offset within the era, in [0, 146096]. -/
def doeOf (days : Int) : Nat :=
  ((days + 719162).emod 146097).toNat

/-- (year index within era, 0-based day of year). -/
def yoeDoy (days : Int) : Nat × Nat :=
  splitYear 400 0 (doeOf days)

/-- Proleptic Gregorian calendar year of a day count from the epoch. -/
def yearOfDays (days : Int) : Int :=
  1 + 400 * eraOf days + (yoeDoy days).1

/-- Whether the year containing the given day is a leap year. -/
def leapOf (days : Int) : Bool :=
  isLeapEra (yoeDoy days).1

/-- (calendar month, 0-based day of month). -/
def monthDay (days : Int) : Nat × Nat :=
  splitMonth (leapOf days) 12 1 (yoeDoy days).2

/-- Calendar month (1-12) of a day count from the epoch. -/
def monthOfDays (days : Int) : Nat := (monthDay days).1

/-- Day of month (1-31) of a day count from the epoch. -/
def dayOfDays (days : Int) : Nat := (monthDay days).2 + 1

/-- 1-based ordinal day of year of a day count from the epoch. -/
def doy1OfDays (days : Int) : Nat := (yoeDoy days).2 + 1

/-- ISO weekday (Monday = 1 .. Sunday = 7); day 0 (1970-01-01) was a Thursday. -/
def isoWeekdayOf (days : Int) : Nat :=
  ((days + 3).emod 7).toNat + 1

/-- Auxiliary quantity of the ISO week-count rule. -/
def isoPOf (y : Int) : Int :=
  (y + y.fdiv 4 - y.fdiv 100 + y.fdiv 400).emod 7

/-- Number of ISO weeks (52 or 53) in the ISO year y. -/
def weeksInISOYear (y : Int) : Nat :=
  if isoPOf y = 4 ∨ isoPOf (y - 1) = 3 then 53 else 52

/-- ISO 8601 week number of a day count from the epoch: weeks start on
Monday and week 1 is the week containing the first Thursday of the year. -/
def isoWeekOfDays (days : Int) : Nat :=
  let w := (doy1OfDays days + 10 - isoWeekdayOf days) / 7
  if w = 0 then weeksInISOYear (yearOfDays days - 1)
  else if weeksInISOYear (yearOfDays days) < w then 1
  else w

/-- The local calendar timestamp, in epoch milliseconds shifted by the
execution environment's timezone offset (tz, in seconds): the model of
datetime.fromtimestamp(ts / 1000) at etl.py line 154. -/
def tsToLocalMs (tz : Int) (ts : Int) : Int := ts + tz * 1000

/-- Whole seconds of a millisecond timestamp (floor). -/
def epochSecsOfMs (ms : Int) : Int := ms.fdiv 1000

/-- Whole days of a millisecond timestamp (floor). -/
def epochDaysOfMs (ms : Int) : Int := (epochSecsOfMs ms).fdiv 86400

/-- Second within the day, in [0, 86399]. -/
def secOfDayOfMs (ms : Int) : Nat := ((epochSecsOfMs ms).emod 86400).toNat

/-- Hour (0-23) of a millisecond timestamp. -/
def hourOfMs (ms : Int) : Nat := secOfDayOfMs ms / 3600

/-- Day of month of a millisecond timestamp. -/
def dayOfMs (ms : Int) : Nat := dayOfDays (epochDaysOfMs ms)

/-- ISO week number of a millisecond timestamp. -/
def weekOfMs (ms : Int) : Nat := isoWeekOfDays (epochDaysOfMs ms)

/-- Month (1-12) of a millisecond timestamp. -/
def monthOfMs (ms : Int) : Nat := monthOfDays (epochDaysOfMs ms)

/-- Calendar year of a millisecond timestamp. -/
def yearOfMs (ms : Int) : Int := yearOfDays (epochDaysOfMs ms)

/-- A row of the songs dimension, columns in the order of the select at
etl.py line 107. -/
structure SongDimRow where
  song_id : String
  title : String
  artist_id : String
  year : Option Int
  duration : Option DecNum
deriving DecidableEq, Repr

/-- A row of the artists dimension, columns in the order of the select and
renames at etl.py lines 115-120. -/
structure ArtistRow where
  artist_id : String
  artist : String
  location : Option String
  latitude : Option String
  longitude : Option String
deriving DecidableEq, Repr

/-- A row of the users dimension, columns in the order of the select at
etl.py line 146. -/
structure UserRow where
  userId : String
  firstName : Option String
  lastName : Option String
  gender : Option String
  level : Option String
deriving DecidableEq, Repr

/-- A row of the time dimension, columns in the order of the select at
etl.py lines 158-164. -/
structure TimeRow where
  start_time : Int
  hour : Nat
  day : Nat
  week : Nat
  month : Nat
  year : Int
deriving DecidableEq, Repr

/-- A row of the persisted songplays fact table, columns in the order of the
select at etl.py lines 176-187. -/
structure SongplayRow where
  start_time : Int
  userId : String
  level : Option String
  song_id : String
  artist_id : String
  sessionId : Option Int
  location : Option String
  userAgent : Option String
  year : Int
  month : Nat
deriving DecidableEq, Repr

/-- songs_table = song_df.select(song_fields).dropDuplicates([song_id])
(etl.py lines 107-108). -/
def songs_table (song_df : List SongRecord) : List SongDimRow :=
  dedupBy (fun r => r.song_id)
    (song_df.map (fun s => ⟨s.song_id, s.title, s.artist_id, s.year, s.duration⟩))

/-- artists_table = song_df.select(artist_fields) with renames, then
dropDuplicates([artist_id]) (etl.py lines 115-121). -/
def artists_table (song_df : List SongRecord) : List ArtistRow :=
  dedupBy (fun r => r.artist_id)
    (song_df.map (fun s =>
      ⟨s.artist_id, s.artist_name, s.artist_location, s.artist_latitude, s.artist_longitude⟩))

/-- Projection of a filtered log event to a users row. -/
def mkUserRow (e : LogEvent) : UserRow :=
  ⟨e.userId, e.firstName, e.lastName, e.gender, e.level⟩

/-- users_table = log_df.filter(page == NextSong).select(user_fields)
.dropDuplicates([userId]) (etl.py lines 143-147). -/
def users_table (log_df : List LogEvent) : List UserRow :=
  dedupBy (fun r => r.userId)
    ((log_df.filter (fun e => e.page == "NextSong")).map mkUserRow)

/-- Derivation of a time row from a filtered log event: start_time is the
local timestamp (etl.py lines 154-155) and hour, day, week, month, year are
the calendar fields of that timestamp (etl.py lines 158-164). -/
def timeRow (tz : Int) (e : LogEvent) : TimeRow :=
  let ms := tsToLocalMs tz e.ts
  ⟨ms, hourOfMs ms, dayOfMs ms, weekOfMs ms, monthOfMs ms, yearOfMs ms⟩

/-- time_table = filtered log events, timestamp-decomposed, then
dropDuplicates([start_time]) (etl.py lines 158-165). -/
def time_table (tz : Int) (log_df : List LogEvent) : List TimeRow :=
  dedupBy (fun r => r.start_time)
    ((log_df.filter (fun e => e.page == "NextSong")).map (timeRow tz))

/-- The inner join of the filtered log events with the raw song records on
title == song and artist_name == artist (etl.py line 172): one pair per
matching combination. -/
def joinPairs (log_df : List LogEvent) (song_df : List SongRecord) :
    List (LogEvent × SongRecord) :=
  (log_df.filter (fun e => e.page == "NextSong")).flatMap (fun e =>
    (song_df.filter (fun s => s.title == e.song && s.artist_name == e.artist)).map
      (fun s => (e, s)))

/-- The joined rows with the surrogate songplay_id column attached
(etl.py line 173): f models monotonically_increasing_id as an arbitrary
strictly monotone function of the row position. -/
def songplaysWithId (f : Nat → Nat) (log_df : List LogEvent) (song_df : List SongRecord) :
    List (LogEvent × SongRecord × Nat) :=
  (joinPairs log_df song_df).enum.map (fun p => (p.2.1, p.2.2, f p.1))

/-- The final fact-row projection (etl.py lines 176-187): note that it keeps
start_time, user, level, song and artist keys, session, location, userAgent
and the derived year and month, and does not keep songplay_id. -/
def mkSongplayRow (tz : Int) (e : LogEvent) (s : SongRecord) : SongplayRow :=
  let ms := tsToLocalMs tz e.ts
  ⟨ms, e.userId, e.level, s.song_id, s.artist_id, e.sessionId, e.location, e.userAgent,
    yearOfMs ms, monthOfMs ms⟩

/-- songplays = the joined-with-id rows projected to the persisted fact
columns (etl.py lines 172-187). -/
def songplays (f : Nat → Nat) (tz : Int) (log_df : List LogEvent)
    (song_df : List SongRecord) : List SongplayRow :=
  (songplaysWithId f log_df song_df).map (fun t => mkSongplayRow tz t.1 t.2.1)

/-- Column names of the raw log dataframe, in log_schema order. -/
def log_columns : List String :=
  ["artist", "auth", "firstName", "gender", "itemInSession", "lastName", "length",
   "level", "location", "method", "page", "registration", "sessionId", "song",
   "status", "ts", "userAgent", "userId"]

/-- Column names of the raw song dataframe, in song_schema order. -/
def song_columns : List String :=
  ["artist_id", "artist_latitude", "artist_longitude", "artist_location",
   "artist_name", "song_id", "title", "duration", "year"]

/-- Column names of the joined dataframe after withColumn(songplay_id, ...)
at etl.py line 173: all log columns, the derived timestamp, all song columns,
and the freshly attached songplay_id. -/
def songplays_join_columns : List String :=
  (log_columns ++ ["timestamp"]) ++ song_columns ++ ["songplay_id"]

/-- Column names of the persisted songplays table: exactly the select list at
etl.py lines 176-187. -/
def songplays_select_columns : List String :=
  ["start_time", "userId", "level", "song_id", "artist_id", "sessionId",
   "location", "userAgent", "year", "month"]

/-- Write modes of the sink.  The source only ever uses overwrite; append is
modelled so that overwrite semantics is a real statement. -/
inductive WriteMode where
  | overwrite : WriteMode
  | append : WriteMode
deriving DecidableEq, Repr

/-- A persisted row of any of the five output tables. -/
inductive RowVal where
  | rSong : SongDimRow → RowVal
  | rArtist : ArtistRow → RowVal
  | rUser : UserRow → RowVal
  | rTime : TimeRow → RowVal
  | rSongplay : SongplayRow → RowVal
deriving DecidableEq, Repr

/-- One write issued to the sink: destination path, the rows, the mode and
the partition columns. -/
structure WriteAction where
  path : String
  rows : List RowVal
  mode : WriteMode
  partitionBy : List String
deriving Repr

/-- The observable contents of the destination: what is stored at each path. -/
def Store := String → Option (List RowVal)

/-- Semantics of one write: overwrite replaces the destination contents,
append extends them. -/
def applyWrite (s : Store) (a : WriteAction) : Store := fun p =>
  if p = a.path then
    match a.mode with
    | WriteMode.overwrite => some a.rows
    | WriteMode.append => some ((s p).getD [] ++ a.rows)
  else s p

/-- Applying a sequence of writes in order. -/
def applyWrites (ws : List WriteAction) (s : Store) : Store :=
  ws.foldl applyWrite s

/-- The two writes of process_song_data, in order (etl.py lines 111-125):
songs partitioned by (year, artist_id), artists unpartitioned, both in
overwrite mode, at paths built by plain string concatenation. -/
def process_song_data_writes (song_df : List SongRecord) (output_path : String) :
    List WriteAction :=
  [⟨output_path ++ "songs/" ++ "songs.parquet",
    (songs_table song_df).map RowVal.rSong, WriteMode.overwrite, ["year", "artist_id"]⟩,
   ⟨output_path ++ "artists/" ++ "artists.parquet",
    (artists_table song_df).map RowVal.rArtist, WriteMode.overwrite, []⟩]

/-- The three writes of process_log_data, in order (etl.py lines 150-191):
users unpartitioned, time and songplays partitioned by (year, month), all in
overwrite mode. -/
def process_log_data_writes (f : Nat → Nat) (tz : Int) (song_df : List SongRecord)
    (log_df : List LogEvent) (output_path : String) : List WriteAction :=
  [⟨output_path ++ "users/" ++ "users.parquet",
    (users_table log_df).map RowVal.rUser, WriteMode.overwrite, []⟩,
   ⟨output_path ++ "time/" ++ "time.parquet",
    (time_table tz log_df).map RowVal.rTime, WriteMode.overwrite, ["year", "month"]⟩,
   ⟨output_path ++ "songplays/" ++ "songplays.parquet",
    (songplays f tz log_df song_df).map RowVal.rSongplay, WriteMode.overwrite,
    ["year", "month"]⟩]

/-- All writes of one whole pipeline run, in execution order
(main, etl.py lines 211-212). -/
def runWrites (f : Nat → Nat) (tz : Int) (song_df : List SongRecord)
    (log_df : List LogEvent) (output_path : String) : List WriteAction :=
  process_song_data_writes song_df output_path ++
    process_log_data_writes f tz song_df log_df output_path

/-- The song source location of main (etl.py line 197). -/
def song_files : String := "s3a://udacity-dend/song_data/*/*/*/*.json"

/-- The log source location of main (etl.py line 198). -/
def log_files : String := "s3a://udacity-dend/log_data/*/*/*.json"

/-- The output root of main (etl.py line 199); note the absence of a
trailing separator. -/
def main_output_path : String := "s3a://project4-alex"

/-- The song record of the spec's worked scenario. -/
def cSong1 : SongRecord :=
  ⟨"A1", none, none, none, "Artist", "S1", "Test", some (200, 0), some 2000⟩

/-- A second song record carrying the same title and artist_name as cSong1
but a different song_id. -/
def cSong2 : SongRecord :=
  ⟨"A1", none, none, none, "Artist", "S2", "Test", some (210, 0), some 2005⟩

/-- The log event of the spec's worked scenario. -/
def cLog1 : LogEvent :=
  { artist := "Artist", auth := none, firstName := some "F", gender := some "M",
    itemInSession := none, lastName := some "L", length := none, level := some "free",
    location := some "X", method := none, page := "NextSong", registration := none,
    sessionId := some 1, song := "Test", status := none, ts := 1541121934796,
    userAgent := some "Y", userId := "U1" }

/-- A NextSong log event at the epoch itself. -/
def cLog10 : LogEvent :=
  { artist := "Artist", auth := none, firstName := none, gender := none,
    itemInSession := none, lastName := none, length := none, level := some "free",
    location := none, method := none, page := "NextSong", registration := none,
    sessionId := some 2, song := "Test", status := none, ts := 0,
    userAgent := none, userId := "U2" }

/-- The same event one day later. -/
def cLog10b : LogEvent :=
  { cLog10 with ts := 86400000 }

/-- A raw song record whose required artist_id field holds a number instead
of a string. -/
def badSongRec : RawRec := [("artist_id", JVal.jnum 1 0)]

/-- A raw log record with every required field absent. -/
def badLogRec : RawRec := [("auth", JVal.jstr "Logged In")]

/-- Every row surviving deduplication comes from the input list. -/
theorem dedupByGo_subset [DecidableEq κ] (key : α → κ) :
    ∀ (l : List α) (seen : List κ) (x : α), x ∈ dedupByGo key seen l → x ∈ l := by
  intro l
  induction l with
  | nil => intro seen x hx; simp [dedupByGo] at hx
  | cons a as ih =>
      intro seen x hx
      by_cases h : key a ∈ seen
      · simp only [dedupByGo, if_pos h] at hx
        exact List.mem_cons_of_mem _ (ih seen x hx)
      · simp only [dedupByGo, if_neg h, List.mem_cons] at hx
        rcases hx with rfl | hx
        · exact List.mem_cons_self _ _
        · exact List.mem_cons_of_mem _ (ih _ x hx)

/-- Every key of the input is either already seen or survives deduplication. -/
theorem dedupByGo_complete [DecidableEq κ] (key : α → κ) :
    ∀ (l : List α) (seen : List κ) (x : α), x ∈ l →
      key x ∈ seen ∨ ∃ y ∈ dedupByGo key seen l, key y = key x := by
  intro l
  induction l with
  | nil => intro seen x hx; cases hx
  | cons a as ih =>
      intro seen x hx
      rcases List.mem_cons.mp hx with rfl | hx
      · by_cases h : key x ∈ seen
        · exact Or.inl h
        · refine Or.inr ⟨x, ?_, rfl⟩
          simp only [dedupByGo, if_neg h]
          exact List.mem_cons_self _ _
      · by_cases h : key a ∈ seen
        · rcases ih seen x hx with h1 | ⟨y, hy, hk⟩
          · exact Or.inl h1
          · refine Or.inr ⟨y, ?_, hk⟩
            simp only [dedupByGo, if_pos h]
            exact hy
        · rcases ih (key a :: seen) x hx with h1 | ⟨y, hy, hk⟩
          · rcases List.mem_cons.mp h1 with h2 | h2
            · refine Or.inr ⟨a, ?_, h2.symm⟩
              simp only [dedupByGo, if_neg h]
              exact List.mem_cons_self _ _
            · exact Or.inl h2
          · refine Or.inr ⟨y, ?_, hk⟩
            simp only [dedupByGo, if_neg h]
            exact List.mem_cons_of_mem _ hy

/-- The surviving keys are pairwise distinct and disjoint from the seen set. -/
theorem dedupByGo_nodup [DecidableEq κ] (key : α → κ) :
    ∀ (l : List α) (seen : List κ),
      ((dedupByGo key seen l).map key).Nodup ∧
        ∀ y ∈ dedupByGo key seen l, key y ∉ seen := by
  intro l
  induction l with
  | nil => intro seen; simp [dedupByGo]
  | cons a as ih =>
      intro seen
      by_cases h : key a ∈ seen
      · simpa only [dedupByGo, if_pos h] using ih seen
      · have ih2 := ih (key a :: seen)
        constructor
        · simp only [dedupByGo, if_neg h, List.map_cons, List.nodup_cons]
          constructor
          · intro hmem
            rcases List.mem_map.mp hmem with ⟨y, hy, hk⟩
            exact (ih2.2 y hy) (hk ▸ List.mem_cons_self _ _)
          · exact ih2.1
        · intro y hy
          simp only [dedupByGo, if_neg h, List.mem_cons] at hy
          rcases hy with rfl | hy
          · exact h
          · intro hc
            exact (ih2.2 y hy) (List.mem_cons_of_mem _ hc)

/-- Rows of a deduplicated list come from the input. -/
theorem dedupBy_subset [DecidableEq κ] (key : α → κ) (l : List α) (x : α)
    (hx : x ∈ dedupBy key l) : x ∈ l :=
  dedupByGo_subset key l [] x hx

/-- A deduplicated list has pairwise distinct keys. -/
theorem dedupBy_nodup [DecidableEq κ] (key : α → κ) (l : List α) :
    ((dedupBy key l).map key).Nodup :=
  (dedupByGo_nodup key l []).1

/-- Every input key appears in the deduplicated list. -/
theorem dedupBy_complete [DecidableEq κ] (key : α → κ) (l : List α) (x : α)
    (hx : x ∈ l) : ∃ y ∈ dedupBy key l, key y = key x := by
  rcases dedupByGo_complete key l [] x hx with h | h
  · cases h
  · exact h

/-- If the fail-fast traversal succeeds, every element was mapped
successfully. -/
theorem mapE_ok (f : α → Except ε β) :
    ∀ (l : List α) (ys : List β), mapE f l = Except.ok ys →
      ∀ x ∈ l, ∃ y, f x = Except.ok y := by
  intro l
  induction l with
  | nil => intro ys _ x hx; cases hx
  | cons a as ih =>
      intro ys h x hx
      rcases List.mem_cons.mp hx with rfl | hx
      · cases hfa : f x with
        | error e => rw [mapE, hfa] at h; cases h
        | ok y => exact ⟨y, rfl⟩
      · cases hfa : f a with
        | error e => rw [mapE, hfa] at h; cases h
        | ok y =>
          cases hm : mapE f as with
          | error e => rw [mapE, hfa, hm] at h; cases h
          | ok ys2 => exact ih ys2 hm x hx

/-- Every year has at least 365 days. -/
theorem daysInYearIdx_ge (yoe : Nat) : 365 ≤ daysInYearIdx yoe := by
  unfold daysInYearIdx; split <;> omega

/-- Every year has at most 366 days. -/
theorem daysInYearIdx_le (yoe : Nat) : daysInYearIdx yoe ≤ 366 := by
  unfold daysInYearIdx; split <;> omega

set_option maxRecDepth 4000 in
/-- Four hundred consecutive years starting at an era boundary hold exactly
146097 days. -/
theorem sumYearLens_total : sumYearLens 0 400 = 146097 := by decide

/-- If the year-splitting loop starts with fewer days than its fuel of years
can hold, it ends inside a year: the remaining day count is below the length
of the year it stops in. -/
theorem splitYear_lt : ∀ (fuel yoe rem : Nat), rem < sumYearLens yoe fuel →
    (splitYear fuel yoe rem).2 < daysInYearIdx (splitYear fuel yoe rem).1 := by
  intro fuel
  induction fuel with
  | zero => intro yoe rem h; simp [sumYearLens] at h
  | succ n ih =>
      intro yoe rem h
      rw [sumYearLens] at h
      by_cases hle : daysInYearIdx yoe ≤ rem
      · rw [splitYear, if_pos hle]
        exact ih (yoe + 1) (rem - daysInYearIdx yoe) (by omega)
      · rw [splitYear, if_neg hle]
        show rem < daysInYearIdx yoe
        omega

/-- The day offset within an era is below 146097. -/
theorem doeOf_lt (days : Int) : doeOf days < 146097 := by
  unfold doeOf
  have h1 : (0 : Int) ≤ (days + 719162).emod 146097 :=
    Int.emod_nonneg _ (by norm_num)
  have h2 : (days + 719162).emod 146097 < 146097 :=
    Int.emod_lt_of_pos _ (by norm_num)
  omega

/-- The 0-based day of year is always inside its year. -/
theorem yoeDoy_lt (days : Int) : (yoeDoy days).2 < daysInYearIdx (yoeDoy days).1 := by
  unfold yoeDoy
  apply splitYear_lt
  have h1 := doeOf_lt days
  have h2 := sumYearLens_total
  omega

/-- Every month has at most 31 days. -/
theorem monthLen_le (leap : Bool) (m : Nat) : monthLen leap m ≤ 31 := by
  unfold monthLen
  split
  any_goals omega
  split <;> omega

/-- The month table telescopes: days from month m onward are the days of
month m plus the days from month m + 1 onward. -/
theorem sumFrom_step (leap : Bool) (m : Nat) (h1 : 1 ≤ m) (h2 : m < 12) :
    sumFrom leap m = monthLen leap m + sumFrom leap (m + 1) := by
  interval_cases m <;> cases leap <;> rfl

/-- If the month-splitting loop starts with fewer days than remain in the
year from its starting month, and has fuel to reach December, it ends inside
a month between its start and December. -/
theorem splitMonth_bounds (leap : Bool) : ∀ (fuel m rem : Nat), 1 ≤ m → m ≤ 12 →
    12 ≤ m + fuel → rem < sumFrom leap m →
    1 ≤ (splitMonth leap fuel m rem).1 ∧ (splitMonth leap fuel m rem).1 ≤ 12 ∧
      (splitMonth leap fuel m rem).2 < monthLen leap (splitMonth leap fuel m rem).1 := by
  intro fuel
  induction fuel with
  | zero =>
      intro m rem h1 h2 h3 h4
      have hm : m = 12 := by omega
      subst hm
      rw [splitMonth]
      show 1 ≤ 12 ∧ 12 ≤ 12 ∧ rem < monthLen leap 12
      have h5 : sumFrom leap 12 = 31 := rfl
      have h6 : monthLen leap 12 = 31 := rfl
      omega
  | succ n ih =>
      intro m rem h1 h2 h3 h4
      by_cases hm12 : 12 ≤ m
      · have hm : m = 12 := by omega
        subst hm
        rw [splitMonth, if_pos hm12]
        show 1 ≤ 12 ∧ 12 ≤ 12 ∧ rem < monthLen leap 12
        have h5 : sumFrom leap 12 = 31 := rfl
        have h6 : monthLen leap 12 = 31 := rfl
        omega
      · by_cases hle : monthLen leap m ≤ rem
        · rw [splitMonth, if_neg hm12, if_pos hle]
          have hrec := sumFrom_step leap m h1 (by omega)
          exact ih (m + 1) (rem - monthLen leap m) (by omega) (by omega) (by omega)
            (by omega)
        · rw [splitMonth, if_neg hm12, if_neg hle]
          show 1 ≤ m ∧ m ≤ 12 ∧ rem < monthLen leap m
          omega

/-- The month and 0-based day-of-month of any day count are in range. -/
theorem monthDay_bounds (days : Int) :
    1 ≤ (monthDay days).1 ∧ (monthDay days).1 ≤ 12 ∧
      (monthDay days).2 < monthLen (leapOf days) (monthDay days).1 := by
  unfold monthDay
  apply splitMonth_bounds (leapOf days) 12 1 (yoeDoy days).2 (by omega) (by omega) (by omega)
  have h := yoeDoy_lt days
  unfold daysInYearIdx at h
  unfold leapOf
  cases hl : isLeapEra (yoeDoy days).1
  · rw [hl] at h
    simp only [Bool.false_eq_true, if_false] at h
    simpa [sumFrom] using h
  · rw [hl] at h
    simp only [if_true] at h
    simpa [sumFrom] using h

/-- The month of any day count is between 1 and 12. -/
theorem monthOfDays_bounds (days : Int) :
    1 ≤ monthOfDays days ∧ monthOfDays days ≤ 12 :=
  ⟨(monthDay_bounds days).1, (monthDay_bounds days).2.1⟩

/-- The day of month of any day count is between 1 and 31. -/
theorem dayOfDays_bounds (days : Int) :
    1 ≤ dayOfDays days ∧ dayOfDays days ≤ 31 := by
  unfold dayOfDays
  have h1 := (monthDay_bounds days).2.2
  have h2 := monthLen_le (leapOf days) (monthDay days).1
  omega

/-- The second-of-day is below 86400. -/
theorem secOfDayOfMs_lt (ms : Int) : secOfDayOfMs ms < 86400 := by
  unfold secOfDayOfMs
  have h1 : (0 : Int) ≤ (epochSecsOfMs ms).emod 86400 :=
    Int.emod_nonneg _ (by norm_num)
  have h2 : (epochSecsOfMs ms).emod 86400 < 86400 :=
    Int.emod_lt_of_pos _ (by norm_num)
  omega

/-- The hour of any millisecond timestamp is at most 23. -/
theorem hourOfMs_le (ms : Int) : hourOfMs ms ≤ 23 := by
  unfold hourOfMs
  have h1 := secOfDayOfMs_lt ms
  have h2 : secOfDayOfMs ms ≤ 86399 := by omega
  calc secOfDayOfMs ms / 3600 ≤ 86399 / 3600 := Nat.div_le_div_right h2
    _ = 23 := by norm_num

/-- Membership in the filter-then-inner-join: a (log event, song record) pair
is produced exactly when the event is a NextSong event of the input and the
song record matches it on title and artist name. -/
theorem mem_joinPairs (log_df : List LogEvent) (song_df : List SongRecord)
    (e : LogEvent) (s : SongRecord) :
    (e, s) ∈ joinPairs log_df song_df ↔
      e ∈ log_df ∧ e.page = "NextSong" ∧ s ∈ song_df ∧
        s.title = e.song ∧ s.artist_name = e.artist := by
  unfold joinPairs
  constructor
  · intro h
    rcases List.mem_flatMap.mp h with ⟨a, ha, hmem⟩
    rcases List.mem_map.mp hmem with ⟨b, hb, heq⟩
    have hae : a = e := congrArg Prod.fst heq
    have hbs : b = s := congrArg Prod.snd heq
    rw [hae] at ha hb
    rw [hbs] at hb
    have h1 := List.mem_filter.mp ha
    have h2 := List.mem_filter.mp hb
    have h3 : s.title = e.song ∧ s.artist_name = e.artist := by
      have := h2.2
      simp only [Bool.and_eq_true, beq_iff_eq] at this
      exact this
    exact ⟨h1.1, beq_iff_eq.mp h1.2, h2.1, h3.1, h3.2⟩
  · rintro ⟨h1, h2, h3, h4, h5⟩
    apply List.mem_flatMap.mpr
    refine ⟨e, List.mem_filter.mpr ⟨h1, beq_iff_eq.mpr h2⟩, ?_⟩
    apply List.mem_map.mpr
    refine ⟨s, List.mem_filter.mpr ⟨h3, ?_⟩, rfl⟩
    simp only [Bool.and_eq_true, beq_iff_eq]
    exact ⟨h4, h5⟩

/-- Dropping the surrogate id after attaching it leaves one projected fact
row per joined pair, in join order. -/
theorem songplays_eq_map (f : Nat → Nat) (tz : Int) (log_df : List LogEvent)
    (song_df : List SongRecord) :
    songplays f tz log_df song_df =
      (joinPairs log_df song_df).map (fun q => mkSongplayRow tz q.1 q.2) := by
  unfold songplays songplaysWithId
  rw [List.map_map]
  have h1 : ((fun t : LogEvent × SongRecord × Nat => mkSongplayRow tz t.1 t.2.1) ∘
      (fun p : Nat × (LogEvent × SongRecord) => (p.2.1, p.2.2, f p.1))) =
      ((fun q : LogEvent × SongRecord => mkSongplayRow tz q.1 q.2) ∘ Prod.snd) := rfl
  rw [h1, ← List.map_map, List.enum_map_snd]

/-- The persisted songplays rows do not depend on the surrogate-id source. -/
theorem songplays_indep (f g : Nat → Nat) (tz : Int) (log_df : List LogEvent)
    (song_df : List SongRecord) :
    songplays f tz log_df song_df = songplays g tz log_df song_df := by
  rw [songplays_eq_map, songplays_eq_map]

/-- The full run issues the same writes whatever the surrogate-id source. -/
theorem runWrites_indep (f g : Nat → Nat) (tz : Int) (song_df : List SongRecord)
    (log_df : List LogEvent) (p : String) :
    runWrites f tz song_df log_df p = runWrites g tz song_df log_df p := by
  unfold runWrites process_log_data_writes
  rw [songplays_indep f g]

/-- Every write of a full run is in overwrite mode. -/
theorem runWrites_overwrite (f : Nat → Nat) (tz : Int) (song_df : List SongRecord)
    (log_df : List LogEvent) (p : String) :
    ∀ a ∈ runWrites f tz song_df log_df p, a.mode = WriteMode.overwrite := by
  intro a ha
  simp only [runWrites, process_song_data_writes, process_log_data_writes,
    List.cons_append, List.nil_append, List.mem_cons, List.not_mem_nil, or_false] at ha
  rcases ha with rfl | rfl | rfl | rfl | rfl <;> rfl

/-- A path written by none of the actions keeps its prior contents. -/
theorem applyWrites_notMem : ∀ (ws : List WriteAction) (s : Store) (p : String),
    (∀ a ∈ ws, a.path ≠ p) → applyWrites ws s p = s p := by
  intro ws
  induction ws with
  | nil => intro s p _; rfl
  | cons a as ih =>
      intro s p h
      show applyWrites as (applyWrite s a) p = s p
      rw [ih (applyWrite s a) p (fun b hb => h b (List.mem_cons_of_mem _ hb))]
      unfold applyWrite
      rw [if_neg]
      intro hc
      exact h a (List.mem_cons_self _ _) hc.symm

/-- Overwrite-only write sequences erase the history of the paths they touch:
the result agrees for any two prior states that agree off the written paths. -/
theorem applyWrites_congr : ∀ (ws : List WriteAction),
    (∀ a ∈ ws, a.mode = WriteMode.overwrite) → ∀ (s t : Store),
    (∀ p, (∀ a ∈ ws, a.path ≠ p) → s p = t p) →
    applyWrites ws s = applyWrites ws t := by
  intro ws
  induction ws with
  | nil =>
      intro _ s t h
      funext p
      exact h p (fun a ha => absurd ha (List.not_mem_nil a))
  | cons a as ih =>
      intro hmode s t h
      show applyWrites as (applyWrite s a) = applyWrites as (applyWrite t a)
      apply ih (fun b hb => hmode b (List.mem_cons_of_mem _ hb))
      intro p hp
      unfold applyWrite
      by_cases hpa : p = a.path
      · rw [if_pos hpa, if_pos hpa, hmode a (List.mem_cons_self _ _)]
      · rw [if_neg hpa, if_neg hpa]
        apply h p
        intro b hb
        rcases List.mem_cons.mp hb with rfl | hb
        · exact fun hc => hpa hc.symm
        · exact hp b hb

/-- Replaying an overwrite-only write sequence on its own result changes
nothing. -/
theorem applyWrites_idem (ws : List WriteAction)
    (hmode : ∀ a ∈ ws, a.mode = WriteMode.overwrite) (s : Store) :
    applyWrites ws (applyWrites ws s) = applyWrites ws s := by
  apply applyWrites_congr ws hmode
  intro p hp
  exact applyWrites_notMem ws s p hp

/-- Read failure is guaranteed whenever some record violates a non-nullable
schema column. -/
theorem read_fails (schema : List StructField) (recs : List RawRec)
    (h : ∃ r ∈ recs, ∃ fld ∈ schema, fld.nullable = false ∧
      isErr (checkField fld (getField r fld.name)) = true) :
    ∃ err, mapE (decodeRow schema) recs = Except.error err := by
  cases hm : mapE (decodeRow schema) recs with
  | error e => exact ⟨e, rfl⟩
  | ok t =>
      exfalso
      rcases h with ⟨r, hr, fld, hf, _, hbad⟩
      rcases mapE_ok (decodeRow schema) recs t hm r hr with ⟨row, hrow⟩
      unfold decodeRow at hrow
      rcases mapE_ok (fun fld => checkField fld (getField r fld.name)) schema row hrow
        fld hf with ⟨v, hv⟩
      rw [hv] at hbad
      cases hbad

/-- C1: within one run the surrogate ids attached to the joined rows are
pairwise distinct (monotonically increasing id); however the persisted
songplays projection drops the songplay_id column it had just attached: the
column is present in the joined dataframe but absent from the select list
that is written out. -/
theorem claim_C1 (f : Nat → Nat) (log_df : List LogEvent) (song_df : List SongRecord)
    (hf : StrictMono f) :
    (((songplaysWithId f log_df song_df).map (fun t => t.2.2)).Nodup) ∧
    "songplay_id" ∈ songplays_join_columns ∧
    "songplay_id" ∉ songplays_select_columns := by
  refine ⟨?_, by decide, by decide⟩
  unfold songplaysWithId
  rw [List.map_map]
  have h1 : ((fun t : LogEvent × SongRecord × Nat => t.2.2) ∘
      (fun p : Nat × (LogEvent × SongRecord) => (p.2.1, p.2.2, f p.1))) =
      (f ∘ Prod.fst) := rfl
  rw [h1, ← List.map_map, List.enum_map_fst]
  exact (List.nodup_range _).map hf.injective

/-- Witness for C1 at the worked scenario input and the identity id source. -/
theorem claim_C1_witness :
    (((songplaysWithId (fun i => i) [cLog1] [cSong1]).map (fun t => t.2.2)).Nodup) ∧
    "songplay_id" ∈ songplays_join_columns ∧
    "songplay_id" ∉ songplays_select_columns :=
  claim_C1 (fun i => i) [cLog1] [cSong1] (fun _ _ h => h)

/-- C2: whenever some record of the input collection has a missing required
field or a type-incompatible value for a required field, the corresponding
read (create_song_df or create_log_df) fails with a SchemaViolation and no
table is produced; the universally quantified statement is exactly the
absence of a skip-bad-records mode. -/
theorem claim_C2 (srecs lrecs : List RawRec) :
    ((∃ r ∈ srecs, ∃ fld ∈ song_schema, fld.nullable = false ∧
        isErr (checkField fld (getField r fld.name)) = true) →
      ∃ err, create_song_df srecs = Except.error err) ∧
    ((∃ r ∈ lrecs, ∃ fld ∈ log_schema, fld.nullable = false ∧
        isErr (checkField fld (getField r fld.name)) = true) →
      ∃ err, create_log_df lrecs = Except.error err) :=
  ⟨fun h => read_fails song_schema srecs h, fun h => read_fails log_schema lrecs h⟩

/-- Witness for C2: a song record whose required artist_id is a number, and
a log record missing every required field. -/
theorem claim_C2_witness :
    (∃ err, create_song_df [badSongRec] = Except.error err) ∧
    (∃ err, create_log_df [badLogRec] = Except.error err) :=
  ⟨(claim_C2 [badSongRec] []).1 (by decide),
   (claim_C2 [] [badLogRec]).2 (by decide)⟩

/-- Counterexample to C3 as stated: one NextSong log event whose (song,
artist) pair matches the (title, artist_name) pair of two distinct song
records yields two songplays rows, not exactly one row for that event. -/
theorem claim_C3_counterexample :
    cLog1.page = "NextSong" ∧
    cSong1.title = cLog1.song ∧ cSong1.artist_name = cLog1.artist ∧
    cSong2.title = cLog1.song ∧ cSong2.artist_name = cLog1.artist ∧
    cSong1 ≠ cSong2 ∧
    (songplays (fun i => i) 0 [cLog1] [cSong1, cSong2]).length = 2 := by
  decide

/-- C3 (amended): the songplays table holds exactly one row per (log event,
song record) pair in which the event page-filters to NextSong and the pair
matches on exact (title = song) and (artist_name = artist) equality - in
particular exactly one row per matching event when the match is unique - and
an event whose pair matches no song record contributes zero rows, with no
error raised. -/
theorem claim_C3 (f : Nat → Nat) (tz : Int) (log_df : List LogEvent)
    (song_df : List SongRecord) :
    songplays f tz log_df song_df =
      (joinPairs log_df song_df).map (fun q => mkSongplayRow tz q.1 q.2) ∧
    ∀ (e : LogEvent) (s : SongRecord),
      (e, s) ∈ joinPairs log_df song_df ↔
        e ∈ log_df ∧ e.page = "NextSong" ∧ s ∈ song_df ∧
          s.title = e.song ∧ s.artist_name = e.artist :=
  ⟨songplays_eq_map f tz log_df song_df, fun e s => mem_joinPairs log_df song_df e s⟩

/-- Witness for C3 at the worked scenario input. -/
theorem claim_C3_witness :
    songplays (fun i => i) 0 [cLog1] [cSong1] =
      (joinPairs [cLog1] [cSong1]).map (fun q => mkSongplayRow 0 q.1 q.2) ∧
    (cLog1, cSong1) ∈ joinPairs [cLog1] [cSong1] :=
  ⟨(claim_C3 (fun i => i) 0 [cLog1] [cSong1]).1,
   ((claim_C3 (fun i => i) 0 [cLog1] [cSong1]).2 cLog1 cSong1).mpr (by decide)⟩

/-- C4: evaluated at the output root of main, which carries no trailing
separator, a complete run writes the five tables to five sibling locations
obtained by bare string concatenation - none of which is a subdirectory of
the output root. -/
theorem claim_C4 :
    ((runWrites (fun i => i) 0 [] [] main_output_path).map (fun a => a.path)) =
      ["s3a://project4-alexsongs/songs.parquet",
       "s3a://project4-alexartists/artists.parquet",
       "s3a://project4-alexusers/users.parquet",
       "s3a://project4-alextime/time.parquet",
       "s3a://project4-alexsongplays/songplays.parquet"] ∧
    ∀ q ∈ (runWrites (fun i => i) 0 [] [] main_output_path).map (fun a => a.path),
      List.isPrefixOf (main_output_path ++ "/").data q.data = false := by
  constructor
  · rfl
  · decide

/-- C5: songs and artists hold at most one row per song_id and artist_id
respectively, and every song_id and artist_id present in the song input
appears in the respective output. -/
theorem claim_C5 (song_df : List SongRecord) :
    ((songs_table song_df).map (fun r => r.song_id)).Nodup ∧
    ((artists_table song_df).map (fun r => r.artist_id)).Nodup ∧
    (∀ s ∈ song_df, ∃ r ∈ songs_table song_df, r.song_id = s.song_id) ∧
    (∀ s ∈ song_df, ∃ r ∈ artists_table song_df, r.artist_id = s.artist_id) := by
  refine ⟨dedupBy_nodup _ _, dedupBy_nodup _ _, ?_, ?_⟩
  · intro s hs
    have hm : (⟨s.song_id, s.title, s.artist_id, s.year, s.duration⟩ : SongDimRow) ∈
        song_df.map (fun x => ⟨x.song_id, x.title, x.artist_id, x.year, x.duration⟩) :=
      List.mem_map_of_mem _ hs
    rcases dedupBy_complete (fun r : SongDimRow => r.song_id) _ _ hm with ⟨y, hy, hk⟩
    exact ⟨y, hy, hk⟩
  · intro s hs
    have hm : (⟨s.artist_id, s.artist_name, s.artist_location, s.artist_latitude,
        s.artist_longitude⟩ : ArtistRow) ∈
        song_df.map (fun x => ⟨x.artist_id, x.artist_name, x.artist_location,
          x.artist_latitude, x.artist_longitude⟩) :=
      List.mem_map_of_mem _ hs
    rcases dedupBy_complete (fun r : ArtistRow => r.artist_id) _ _ hm with ⟨y, hy, hk⟩
    exact ⟨y, hy, hk⟩

/-- Witness for C5 at the worked scenario song record. -/
theorem claim_C5_witness :
    ((songs_table [cSong1]).map (fun r => r.song_id)).Nodup ∧
    ((artists_table [cSong1]).map (fun r => r.artist_id)).Nodup ∧
    (∃ r ∈ songs_table [cSong1], r.song_id = cSong1.song_id) ∧
    (∃ r ∈ artists_table [cSong1], r.artist_id = cSong1.artist_id) := by
  have h := claim_C5 [cSong1]
  exact ⟨h.1, h.2.1, h.2.2.1 cSong1 (List.mem_cons_self _ _),
    h.2.2.2 cSong1 (List.mem_cons_self _ _)⟩

/-- C6: every row of users, time and songplays derives from a log event with
page = NextSong; events with any other page value contribute no row to any of
the three tables, directly or through the fact join. -/
theorem claim_C6 (f : Nat → Nat) (tz : Int) (log_df : List LogEvent)
    (song_df : List SongRecord) :
    (∀ u ∈ users_table log_df, ∃ e ∈ log_df, e.page = "NextSong" ∧ u = mkUserRow e) ∧
    (∀ t ∈ time_table tz log_df, ∃ e ∈ log_df, e.page = "NextSong" ∧ t = timeRow tz e) ∧
    (∀ r ∈ songplays f tz log_df song_df, ∃ e ∈ log_df, ∃ s ∈ song_df,
      e.page = "NextSong" ∧ r = mkSongplayRow tz e s) := by
  refine ⟨?_, ?_, ?_⟩
  · intro u hu
    have h1 := dedupBy_subset _ _ _ hu
    rcases List.mem_map.mp h1 with ⟨e, he, rfl⟩
    have h2 := List.mem_filter.mp he
    exact ⟨e, h2.1, beq_iff_eq.mp h2.2, rfl⟩
  · intro t ht
    have h1 := dedupBy_subset _ _ _ ht
    rcases List.mem_map.mp h1 with ⟨e, he, rfl⟩
    have h2 := List.mem_filter.mp he
    exact ⟨e, h2.1, beq_iff_eq.mp h2.2, rfl⟩
  · intro r hr
    rw [songplays_eq_map] at hr
    rcases List.mem_map.mp hr with ⟨⟨e, s⟩, hq, rfl⟩
    rcases (mem_joinPairs _ _ e s).mp hq with ⟨h1, h2, h3, _, _⟩
    exact ⟨e, h1, s, h3, h2, rfl⟩

/-- Witness for C6 at the worked scenario input. -/
theorem claim_C6_witness :
    (∃ e ∈ [cLog1], e.page = "NextSong" ∧ mkUserRow cLog1 = mkUserRow e) ∧
    (∃ e ∈ [cLog1], e.page = "NextSong" ∧ timeRow 0 cLog1 = timeRow 0 e) ∧
    (∃ e ∈ [cLog1], ∃ s ∈ [cSong1], e.page = "NextSong" ∧
      mkSongplayRow 0 cLog1 cSong1 = mkSongplayRow 0 e s) := by
  have h := claim_C6 (fun i => i) 0 [cLog1] [cSong1]
  exact ⟨h.1 (mkUserRow cLog1) (by decide), h.2.1 (timeRow 0 cLog1) (by decide),
    h.2.2 (mkSongplayRow 0 cLog1 cSong1) (by decide)⟩

/-- C7: every time row comes from a NextSong event by converting its ts
(epoch milliseconds) to the local calendar timestamp start_time and deriving
hour (0-23), day of month (1-31), ISO week number, month (1-12) and year from
that timestamp, and the time table keeps at most one row per distinct
start_time value. -/
theorem claim_C7 (tz : Int) (log_df : List LogEvent) :
    ((time_table tz log_df).map (fun t => t.start_time)).Nodup ∧
    ∀ t ∈ time_table tz log_df, ∃ e ∈ log_df, e.page = "NextSong" ∧
      t = timeRow tz e ∧
      t.start_time = tsToLocalMs tz e.ts ∧
      t.hour = hourOfMs (tsToLocalMs tz e.ts) ∧ t.hour ≤ 23 ∧
      t.day = dayOfMs (tsToLocalMs tz e.ts) ∧ 1 ≤ t.day ∧ t.day ≤ 31 ∧
      t.week = weekOfMs (tsToLocalMs tz e.ts) ∧
      t.month = monthOfMs (tsToLocalMs tz e.ts) ∧ 1 ≤ t.month ∧ t.month ≤ 12 ∧
      t.year = yearOfMs (tsToLocalMs tz e.ts) := by
  constructor
  · exact dedupBy_nodup _ _
  · intro t ht
    have h1 := dedupBy_subset _ _ _ ht
    rcases List.mem_map.mp h1 with ⟨e, he, rfl⟩
    have h2 := List.mem_filter.mp he
    refine ⟨e, h2.1, beq_iff_eq.mp h2.2, rfl, rfl, rfl, hourOfMs_le _, rfl,
      (dayOfDays_bounds _).1, (dayOfDays_bounds _).2, rfl, rfl,
      (monthOfDays_bounds _).1, (monthOfDays_bounds _).2, rfl⟩

/-- Witness for C7 at the worked scenario input: its single time row carries
2018-11-02. -/
theorem claim_C7_witness :
    ((time_table 0 [cLog1]).map (fun t => t.start_time)).Nodup ∧
    (∃ e ∈ [cLog1], e.page = "NextSong" ∧
      timeRow 0 cLog1 = timeRow 0 e ∧
      (timeRow 0 cLog1).start_time = tsToLocalMs 0 e.ts ∧
      (timeRow 0 cLog1).hour = hourOfMs (tsToLocalMs 0 e.ts) ∧
      (timeRow 0 cLog1).hour ≤ 23 ∧
      (timeRow 0 cLog1).day = dayOfMs (tsToLocalMs 0 e.ts) ∧
      1 ≤ (timeRow 0 cLog1).day ∧ (timeRow 0 cLog1).day ≤ 31 ∧
      (timeRow 0 cLog1).week = weekOfMs (tsToLocalMs 0 e.ts) ∧
      (timeRow 0 cLog1).month = monthOfMs (tsToLocalMs 0 e.ts) ∧
      1 ≤ (timeRow 0 cLog1).month ∧ (timeRow 0 cLog1).month ≤ 12 ∧
      (timeRow 0 cLog1).year = yearOfMs (tsToLocalMs 0 e.ts)) ∧
    (timeRow 0 cLog1).year = 2018 ∧ (timeRow 0 cLog1).month = 11 ∧
    (timeRow 0 cLog1).day = 2 := by
  have h := claim_C7 0 [cLog1]
  exact ⟨h.1, h.2 (timeRow 0 cLog1) (by decide), by decide, by decide, by decide⟩

/-- C8: every one of the five table writes of a run is in overwrite mode -
whose semantics replaces whatever was previously stored at the destination -
and the partition columns are (year, artist_id) for songs, none for artists,
none for users, (year, month) for time and (year, month) for songplays, in
that order. -/
theorem claim_C8 (f : Nat → Nat) (tz : Int) (song_df : List SongRecord)
    (log_df : List LogEvent) (p : String) :
    (runWrites f tz song_df log_df p).map (fun a => (a.mode, a.partitionBy)) =
      [(WriteMode.overwrite, ["year", "artist_id"]),
       (WriteMode.overwrite, []),
       (WriteMode.overwrite, []),
       (WriteMode.overwrite, ["year", "month"]),
       (WriteMode.overwrite, ["year", "month"])] ∧
    (∀ (s : Store) (a : WriteAction), a.mode = WriteMode.overwrite →
      applyWrite s a a.path = some a.rows) := by
  constructor
  · rfl
  · intro s a h
    simp [applyWrite, h]

/-- Witness for C8 at concrete arguments. -/
theorem claim_C8_witness :
    (runWrites (fun i => i) 0 [] [] "out/").map (fun a => (a.mode, a.partitionBy)) =
      [(WriteMode.overwrite, ["year", "artist_id"]),
       (WriteMode.overwrite, []),
       (WriteMode.overwrite, []),
       (WriteMode.overwrite, ["year", "month"]),
       (WriteMode.overwrite, ["year", "month"])] ∧
    applyWrite (fun _ => none) (⟨"p", [], WriteMode.overwrite, []⟩ : WriteAction)
        (⟨"p", [], WriteMode.overwrite, []⟩ : WriteAction).path =
      some (⟨"p", [], WriteMode.overwrite, []⟩ : WriteAction).rows :=
  ⟨(claim_C8 (fun i => i) 0 [] [] "out/").1,
   (claim_C8 (fun i => i) 0 [] [] "out/").2 (fun _ => none)
     (⟨"p", [], WriteMode.overwrite, []⟩ : WriteAction) rfl⟩

/-- C9: running the whole pipeline twice on identical inputs against the same
destination leaves the destination's observable contents identical after the
second run, even when the two runs draw their surrogate ids from different
sources (f and g). -/
theorem claim_C9 (tz : Int) (f g : Nat → Nat) (song_df : List SongRecord)
    (log_df : List LogEvent) (p : String) (s0 : Store) :
    applyWrites (runWrites g tz song_df log_df p)
        (applyWrites (runWrites f tz song_df log_df p) s0) =
      applyWrites (runWrites f tz song_df log_df p) s0 := by
  rw [runWrites_indep g f]
  exact applyWrites_idem _ (runWrites_overwrite f tz song_df log_df p) s0

/-- C10: the time and songplays rows produced for a fixed input depend on the
execution environment's local timezone as well as on ts: at the epoch event,
a run with offset 0 and a run with offset 3600 produce different time and
songplays rows, and two events one day apart produce different time rows. -/
theorem claim_C10 :
    time_table 0 [cLog10] ≠ time_table 3600 [cLog10] ∧
    time_table 0 [cLog10] ≠ time_table 0 [cLog10b] ∧
    songplays (fun i => i) 0 [cLog10] [cSong1] ≠
      songplays (fun i => i) 3600 [cLog10] [cSong1] := by
  decide
